import Mathlib

/-!
Shallow embedding of the `jnix` derive engine (crates `jnix` and `jnix-macros`).

The repository snapshot contains two revisions of the derivation engine:
an older one living entirely in `jnix-macros/src/lib.rs` (its own
`parse_fields`, `generate_struct_or_struct_variant_into_java_body`,
`generate_enum_class_bodies`, `generate_sealed_class_bodies`,
`prepare_map_closure`) and a newer one in `jnix-macros/src/fields.rs`
(`ParsedField`, `ParsedFields`).  Both are embedded below; definitions are
prefixed `fieldsRs_` / `libRs_` (or carry the source name directly when only
one revision defines it).  Emission of Rust tokens is modelled by the data the
tokens compute at run time: descriptor strings, bridge-call sequences, and the
success/abort behaviour of the generated conversion body.
-/

namespace Jnix

/-- Rust types occurring in field positions, as far as the conversion table in
`jnix/src/into_java/implementations/std.rs` and derived types are concerned.
`derived c` is a type whose `IntoJava` implementation was produced by the
derive macro with `class_name = c` (dotted form); `param n` is a bare generic
type parameter named `n`. -/
inductive RustType where
  | bool
  | i16
  | i32
  | f64
  | byteSlice
  | string
  | option (t : RustType)
  | vec (t : RustType)
  | derived (class_name : String)
  | param (name : String)
deriving DecidableEq

/-- One parsed `#[jnix(...)]` item: either a bare flag (`skip`, `skip_all`,
`debug`) or a key/value setting with a string-literal value (`class_name`,
`target_class`, `map`).  Mirrors the two shapes accepted by
`extract_jnix_attributes` in `jnix-macros/src/lib.rs` (a `Path` or a
`MetaNameValue`). -/
inductive JnixAttr where
  | flag (name : String)
  | keyValue (name : String) (value : String)
deriving DecidableEq

/-- `contains_jnix_flag_attribute` (`jnix-macros/src/lib.rs` lines 129-133):
true when some parsed jnix attribute is the bare flag `name`.  The newer
revision's `JnixAttributes::has_flag` is declared in the missing
`jnix-macros/src/attributes.rs`; modelled from the spec: section 4.1, "answer
(a) whether a named flag is present", with the same meaning. -/
def contains_jnix_flag (attrs : List JnixAttr) (name : String) : Bool :=
  attrs.any (fun a =>
    match a with
    | JnixAttr.flag n => n == name
    | JnixAttr.keyValue _ _ => false)

/-- `extract_jnix_name_value_attribute` (`jnix-macros/src/lib.rs` lines
121-127): the value of the first key/value jnix attribute named `name`.  The
newer revision's `JnixAttributes::get_value` is declared in the missing
`jnix-macros/src/attributes.rs`; modelled from the spec: section 4.1, "the
string value of a named key/value setting if present". -/
def get_jnix_value (attrs : List JnixAttr) (name : String) : Option String :=
  attrs.findSome? (fun a =>
    match a with
    | JnixAttr.keyValue n v => if n == name then some v else none
    | JnixAttr.flag _ => none)

/-- A `syn::Field`: optional identifier (present exactly for named fields),
declared type, and its parsed jnix attributes. -/
structure Field where
  ident : Option String
  ty : RustType
  attrs : List JnixAttr
deriving DecidableEq

/-- `syn::Fields`: the field list of a struct or enum variant. -/
inductive Fields where
  | unit
  | named (fields : List Field)
  | unnamed (fields : List Field)
deriving DecidableEq

/-- `syn::Member`: a member-access path, either by name or by position. -/
inductive Member where
  | named (ident : String)
  | unnamed (index : Nat)
deriving DecidableEq

/-- A `syn::Variant` of an enumeration: identifier plus field list. -/
structure Variant where
  ident : String
  fields : Fields
deriving DecidableEq

/-- `ParsedField` (`jnix-macros/src/fields.rs` lines 9-16). -/
structure ParsedField where
  name : String
  field : Field
  attributes : List JnixAttr
  member : Member
  source_binding : String
deriving DecidableEq

/-- `ParsedField::new` (`fields.rs` lines 19-36): the source binding is the
identifier `_source_<name>`. -/
def ParsedField.new (name : String) (field : Field) (attributes : List JnixAttr)
    (member : Member) : ParsedField :=
  { name := name
    field := field
    attributes := attributes
    member := member
    source_binding := "_source_" ++ name }

/-- `ParsedField::check_skip_attribute` (`fields.rs` lines 57-65): parse the
field's attributes and drop the field when the `skip` flag is present. -/
def ParsedField.check_skip (field : Field) : Option (List JnixAttr) :=
  if contains_jnix_flag field.attrs "skip" then none else some field.attrs

/-- `ParsedField::from_named_field` (`fields.rs` lines 38-46).  The source
panics on a named field without an identifier ("Named field with no name
ident", impossible for parsed `syn` input); that dead branch is modelled as
`none`. -/
def ParsedField.from_named_field (field : Field) : Option ParsedField := do
  let attributes ← ParsedField.check_skip field
  let ident ← field.ident
  some (ParsedField.new ident field attributes (Member.named ident))

/-- `ParsedField::from_unnamed_field` (`fields.rs` lines 48-55): the synthetic
name is `_<index>` for the index the field was zipped with. -/
def ParsedField.from_unnamed_field (p : Field × Nat) : Option ParsedField := do
  let attributes ← ParsedField.check_skip p.1
  some (ParsedField.new ("_" ++ toString p.2) p.1 attributes (Member.unnamed p.2))

/-- `ParsedFields::collect_parsed_fields` (`fields.rs` lines 131-150).  For
unnamed fields the raw field list is zipped with the counter `0..` BEFORE the
skip filter runs (`.zip(0..).filter_map(...)`). -/
def collect_parsed_fields (fields : Fields) (attributes : List JnixAttr) :
    List ParsedField :=
  if contains_jnix_flag attributes "skip_all" then []
  else
    match fields with
    | Fields.unit => []
    | Fields.named fs => fs.filterMap ParsedField.from_named_field
    | Fields.unnamed fs =>
        (fs.zip (List.range fs.length)).filterMap ParsedField.from_unnamed_field

/-- `parse_fields` (`jnix-macros/src/lib.rs` lines 499-535), the older
revision.  For unnamed fields the skip filter runs BEFORE the counter is
zipped (`.filter(...).zip(0..)`), so the synthesized binding `_<counter>`
counts retained fields only. -/
def libRs_parse_fields (attributes : List JnixAttr) (fields : Fields) :
    List (Member × String × Field) :=
  if contains_jnix_flag attributes "skip_all" then []
  else
    match fields with
    | Fields.unit => []
    | Fields.unnamed fs =>
        let kept := fs.filter (fun f => !(contains_jnix_flag f.attrs "skip"))
        (kept.zip (List.range kept.length)).map
          (fun p => (Member.unnamed p.2, "_" ++ toString p.2, p.1))
    | Fields.named fs =>
        (fs.filter (fun f => !(contains_jnix_flag f.attrs "skip"))).filterMap
          (fun f =>
            match f.ident with
            | some id => some (Member.named id, id, f)
            | none => none)

/-- `TargetJavaEnumType` (`jnix-macros/src/lib.rs` lines 194-199). -/
inductive TargetJavaEnumType where
  | Unknown
  | EnumClass (variant_names : List String)
  | SealedClass (variant_names : List String) (variant_fields : List Fields)
deriving DecidableEq

/-- One step of the fold in `parse_enum_variants` (`lib.rs` lines 206-234):
the three-state accumulator transition for one variant. -/
def parse_enum_variants_step (enum_type : TargetJavaEnumType) (variant : Variant) :
    TargetJavaEnumType :=
  match enum_type with
  | TargetJavaEnumType.Unknown =>
      match variant.fields with
      | Fields.unit => TargetJavaEnumType.EnumClass [variant.ident]
      | fs => TargetJavaEnumType.SealedClass [variant.ident] [fs]
  | TargetJavaEnumType.EnumClass variant_names =>
      let names := variant_names ++ [variant.ident]
      match variant.fields with
      | Fields.unit => TargetJavaEnumType.EnumClass names
      | fs =>
          TargetJavaEnumType.SealedClass names
            (List.replicate (names.length - 1) Fields.unit ++ [fs])
  | TargetJavaEnumType.SealedClass variant_names variant_fields =>
      TargetJavaEnumType.SealedClass (variant_names ++ [variant.ident])
        (variant_fields ++ [variant.fields])

/-- `parse_enum_variants` (`lib.rs` lines 201-235): a strict left fold over
the declared variant list starting from `Unknown`. -/
def parse_enum_variants (variants : List Variant) : TargetJavaEnumType :=
  variants.foldl parse_enum_variants_step TargetJavaEnumType.Unknown

/-- Dotted class name to the slash-delimited JNI form
(`jnix-macros/src/lib.rs` line 18: `class_name.replace(".", "/")`; since the
pattern is the single character `.`, the replacement is a character map). -/
def jni_class_name_of (class_name : String) : String :=
  String.mk (class_name.data.map (fun c => if c = '.' then '/' else c))

/-- The `JNI_SIGNATURE` constant emitted for a derived type
(`lib.rs` line 36: `concat!("L", #jni_class_name_literal, ";")`). -/
def derived_jni_signature (class_name : String) : String :=
  "L" ++ jni_class_name_of class_name ++ ";"

/-- The compile-time `JNI_SIGNATURE` constants of the conversion table in
`jnix/src/into_java/implementations/std.rs` together with the derived-type
constant; `none` for a bare type parameter, which has no inherent
implementation. -/
def type_jni_signature : RustType → Option String
  | RustType.bool => some "Z"
  | RustType.i16 => some "S"
  | RustType.i32 => some "I"
  | RustType.f64 => some "D"
  | RustType.byteSlice => some "[B"
  | RustType.string => some "Ljava/lang/String;"
  | RustType.option t => type_jni_signature t
  | RustType.vec _ => some "Ljava/util/ArrayList;"
  | RustType.derived c => some (derived_jni_signature c)
  | RustType.param _ => none

/-- Modelled from the spec: `TypeParameters::is_used_in_type` lives in the
missing `jnix-macros/src/generics.rs`; per spec sections 4.2 and 9 it is a
shallow, textual check of whether the field's type mentions one of the
type's parameters. -/
def is_used_in_type (tps : List String) : RustType → Bool
  | RustType.param n => tps.contains n
  | RustType.option t => is_used_in_type tps t
  | RustType.vec t => is_used_in_type tps t
  | _ => false

/-- The signature expression selected per field by `ParsedFields::declarations`
(`fields.rs` lines 250-261): an explicit `target_class` descriptor wins;
otherwise a field whose type mentions a type parameter gets the erased
`Ljava/lang/Object;`; otherwise the `converted` value's own `jni_signature()`.
That last binding is statically known only when the field has no `map`
transform (then `preconversion`, `fields.rs` lines 75-89, is the identity and
the converted value has the field's declared type); `none` stands for a
signature determined only at run time. -/
def field_signature (tps : List String) (f : ParsedField) : Option String :=
  match get_jnix_value f.attributes "target_class" with
  | some target => some ("L" ++ jni_class_name_of target ++ ";")
  | none =>
      if is_used_in_type tps f.field.ty then some "Ljava/lang/Object;"
      else if (get_jnix_value f.attributes "map").isSome then none
      else type_jni_signature f.field.ty

/-- The `constructor_signature` string built by the emitted statements
(`fields.rs` lines 210-216 and `lib.rs` lines 426-432): start from `(`,
`push_str` each field signature in declaration order, then `push_str(")V")`. -/
def assemble_constructor_signature (sigs : List String) : String :=
  (sigs.foldl (fun acc s => acc ++ s) "(") ++ ")V"

/-- The constructor descriptor of the conversion emitted for a struct or
struct variant, when every field signature is statically known. -/
def struct_constructor_signature (tps : List String) (fields : List ParsedField) :
    Option String :=
  (fields.mapM (field_signature tps)).map assemble_constructor_signature

/-- The constructor argument list of the emitted conversion: the `final`
binding of each retained field, in order (`fields.rs` lines 71-73 and 219). -/
def constructor_parameters (fields : List ParsedField) : List String :=
  fields.map (fun f => "_final_" ++ f.name)

/-- A raw JNI object reference. -/
inductive JObject where
  | null
  | ref (id : Nat)
deriving DecidableEq

/-- A scope-bound auto-released handle (`jni::objects::AutoLocal`). -/
structure AutoLocal where
  obj : JObject
deriving DecidableEq

/-- `env.auto_local`: wrap a raw object reference in a scoped handle. -/
def auto_local (o : JObject) : AutoLocal := ⟨o⟩

/-- `jni::objects::JValue` run-time value shapes, as far as the emitted
shape check distinguishes them: an object reference or anything else. -/
inductive JValue where
  | Object (o : JObject)
  | IntValue (n : Int)
  | BoolValue (b : Bool)
deriving DecidableEq

/-- Whether a `JValue` is an object reference. -/
def JValue.isObject : JValue → Bool
  | JValue.Object _ => true
  | _ => false

/-- How the emitted code designates the class in a bridge call: a class
reference previously obtained from `JnixEnv::get_class`, or the raw
class-name string handed straight to the bridge. -/
inductive ClassArg where
  | cachedRef (name : String)
  | nameString (name : String)
deriving DecidableEq

/-- One bridge call appearing in an emitted conversion body. -/
inductive BridgeCall where
  | getClass (name : String)
  | newObject (cls : ClassArg) (ctor_sig : String)
  | getStaticFieldId (cls : ClassArg) (field_name : String) (field_sig : String)
  | getStaticFieldValue (cls : ClassArg)
  | autoLocal
deriving DecidableEq

/-- A bridge call bypasses the process-wide class cache when it hands a raw
class-name string to the bridge instead of a reference from
`JnixEnv::get_class`. -/
def BridgeCall.bypasses_cache : BridgeCall → Bool
  | BridgeCall.newObject (ClassArg.nameString _) _ => true
  | BridgeCall.getStaticFieldId (ClassArg.nameString _) _ _ => true
  | BridgeCall.getStaticFieldValue (ClassArg.nameString _) => true
  | _ => false

/-- The bridge calls of the conversion body emitted by
`ParsedFields::generate_into_java_conversion` (`fields.rs` lines 219-231):
`env.get_class(#jni_class_name_literal)`, then `env.new_object(&class, ...)`
on the cached class reference, then `env.auto_local(object)`. -/
def fieldsRs_conversion_calls (jni_class_name ctor_sig : String) : List BridgeCall :=
  [BridgeCall.getClass jni_class_name,
   BridgeCall.newObject (ClassArg.cachedRef jni_class_name) ctor_sig,
   BridgeCall.autoLocal]

/-- The bridge calls of the body emitted by the older
`generate_struct_or_struct_variant_into_java_body` (`lib.rs` lines 423-445):
`env.new_object(#jni_class_name_literal, ...)` is handed the class-name
string directly, with no `get_class` call. -/
def libRs_struct_body_calls (jni_class_name ctor_sig : String) : List BridgeCall :=
  [BridgeCall.newObject (ClassArg.nameString jni_class_name) ctor_sig,
   BridgeCall.autoLocal]

/-- The bridge calls of a simple-enumeration variant body
(`generate_enum_class_bodies`, `lib.rs` lines 310-341): both static-field
calls are handed the class-name string directly. -/
def libRs_enum_body_calls (jni_class_name variant_name : String) : List BridgeCall :=
  [BridgeCall.getStaticFieldId (ClassArg.nameString jni_class_name) variant_name
     ("L" ++ jni_class_name ++ ";"),
   BridgeCall.getStaticFieldValue (ClassArg.nameString jni_class_name),
   BridgeCall.autoLocal]

/-- The process-wide `CLASS_CACHE` state (`jnix/src/jnix_env.rs` lines 9-10)
plus a log of `load_class` invocations (lines 58-69); a global class
reference is an id, fresh ids taken from `next_ref`. -/
structure ClassCache where
  entries : List (String × Nat)
  next_ref : Nat
  load_log : List String
deriving DecidableEq

/-- `JnixEnv::get_class` (`jnix_env.rs` lines 31-45): return the cached
global class reference when the name is present; otherwise `load_class`
exactly once and insert the fresh reference. -/
def get_class (st : ClassCache) (name : String) : Nat × ClassCache :=
  match st.entries.lookup name with
  | some r => (r, st)
  | none =>
      (st.next_ref,
       { entries := st.entries ++ [(name, st.next_ref)]
         next_ref := st.next_ref + 1
         load_log := st.load_log ++ [name] })

/-- Outcome of running an emitted conversion body: a scoped handle, or a
process abort (`expect` / run-time contract violation) with its message. -/
inductive RunResult where
  | ok (handle : AutoLocal)
  | abort (msg : String)
deriving DecidableEq

/-- The `expect` message of the struct conversion body (`fields.rs` lines
223-228 and `lib.rs` lines 437-442). -/
def struct_failure_message (type_name class_name : String) : String :=
  "Failed to convert " ++ type_name ++ " Rust type into " ++ class_name
    ++ " Java object"

/-- Run-time behaviour of the emitted struct conversion body (both
revisions): the bridge's construction result is unwrapped with `expect`,
aborting on failure, and wrapped with `env.auto_local` on success. -/
def struct_conversion_run (type_name class_name : String)
    (construction : Option JObject) : RunResult :=
  match construction with
  | some o => RunResult.ok (auto_local o)
  | none => RunResult.abort (struct_failure_message type_name class_name)

/-- The `expect` message of both static-field lookups in a
simple-enumeration variant body (`lib.rs` lines 315-320 and 326-331). -/
def enum_variant_failure_message (type_name variant_name class_name : String) :
    String :=
  "Failed to convert " ++ type_name ++ "::" ++ variant_name
    ++ " Rust enum variant into " ++ class_name ++ " Java object"

/-- The message of the shape-check contract violation in a
simple-enumeration variant body (`lib.rs` lines 335-340). -/
def enum_variant_invalid_message (type_name variant_name class_name : String) :
    String :=
  "Conversion from " ++ type_name ++ "::" ++ variant_name
    ++ " Rust enum variant into " ++ class_name
    ++ " Java object returned an invalid result."

/-- Run-time behaviour of a simple-enumeration variant body
(`generate_enum_class_bodies`, `lib.rs` lines 310-341): field-id lookup,
then value lookup, then the match on the returned `JValue` shape; each
failure aborts, only an object reference is wrapped in a scoped handle. -/
def enum_variant_run (type_name variant_name class_name : String)
    (field_id : Option Nat) (value : Option JValue) : RunResult :=
  match field_id with
  | none => RunResult.abort (enum_variant_failure_message type_name variant_name class_name)
  | some _ =>
      match value with
      | none => RunResult.abort (enum_variant_failure_message type_name variant_name class_name)
      | some (JValue.Object o) => RunResult.ok (auto_local o)
      | some _ => RunResult.abort (enum_variant_invalid_message type_name variant_name class_name)

/-- The static-field lookup emitted per simple-enumeration variant
(`lib.rs` lines 311-314): class designated by the declaring class's name
string, field name = the variant's identifier, expected field type
`concat!("L", #jni_class_name_literal, ";")`. -/
structure EnumVariantLookup where
  class_arg : ClassArg
  field_name : String
  field_sig : String
deriving DecidableEq

/-- The lookup data emitted for one simple-enumeration variant. -/
def generate_enum_class_lookup (jni_class_name variant_name : String) :
    EnumVariantLookup :=
  { class_arg := ClassArg.nameString jni_class_name
    field_name := variant_name
    field_sig := "L" ++ jni_class_name ++ ";" }

/-- Per sealed-hierarchy variant, `generate_sealed_class_bodies`
(`lib.rs` lines 347-387) computes a nested construction-target class name
`format!("{}${}", jni_class_name, variant_name)` and delegates to the struct
body emitter on the variant's fields parsed with empty container
attributes. -/
structure SealedVariantBody where
  target_class_name : String
  parsed : List (Member × String × Field)
deriving DecidableEq

/-- The per-variant bodies of a sealed-hierarchy conversion, zipping the
classified variant names with their field lists. -/
def generate_sealed_class_bodies (jni_class_name : String)
    (variant_names : List String) (variant_fields : List Fields) :
    List SealedVariantBody :=
  (variant_names.zip variant_fields).map (fun p =>
    { target_class_name := jni_class_name ++ "$" ++ p.1
      parsed := libRs_parse_fields [] p.2 })

/-- One parameter of a `jnix(map = ...)` closure: its pattern and, when the
user wrote `Pat::Type`, the explicit type annotation. -/
structure ClosureParam where
  pat : String
  ty : Option RustType
deriving DecidableEq

/-- A parsed `syn::ExprClosure`: parameter list and (opaque) body text. -/
structure ExprClosure where
  inputs : List ClosureParam
  body : String
deriving DecidableEq

/-- `add_type_to_parameter` (`fields.rs` lines 106-117 and `lib.rs` lines
573-584): keep an already-annotated parameter, otherwise annotate it with
the field's own declared type. -/
def add_type_to_parameter (field_ty : RustType) (p : ClosureParam) : ClosureParam :=
  match p.ty with
  | some _ => p
  | none => { p with ty := some field_ty }

/-- `ParsedField::prepare_map_closure` (`fields.rs` lines 91-104): assert at
most one parameter (the `assert!` aborts macro expansion otherwise), pop the
last parameter (failing when there is none), annotate it, push it back. -/
def fieldsRs_prepare_map_closure (field_ty : RustType) (c : ExprClosure) :
    Except String ExprClosure :=
  if c.inputs.length ≤ 1 then
    match c.inputs.getLast? with
    | none => Except.error "Missing parameter in jnix(map = ...) closure"
    | some p =>
        Except.ok { c with inputs := c.inputs.dropLast ++ [add_type_to_parameter field_ty p] }
  else Except.error "Too many parameters in jnix(map = ...) closure"

/-- `prepare_map_closure` (`lib.rs` lines 556-571): the older revision
asserts exactly one parameter, then pops, annotates and pushes back. -/
def libRs_prepare_map_closure (field_ty : RustType) (c : ExprClosure) :
    Except String ExprClosure :=
  if c.inputs.length = 1 then
    match c.inputs.getLast? with
    | none => Except.error "Missing parameter in jnix(map = ...) closure"
    | some p =>
        Except.ok { c with inputs := c.inputs.dropLast ++ [add_type_to_parameter field_ty p] }
  else Except.error "Too many parameters in jnix(map = ...) closure"

/-- `impl IntoJava for Option<T>` conversion body
(`jnix/src/into_java/implementations/std.rs` lines 110-115), with
`T::into_java` partially applied to the environment (the environment is
passed through both branches unchanged): `Some(t)` converts `t`, `None`
wraps the null object reference in a scoped handle. -/
def option_into_java {T : Type} (into_java_t : T → AutoLocal) :
    Option T → AutoLocal
  | some t => into_java_t t
  | none => auto_local JObject.null

/-- A two-field tuple struct whose first field carries `#[jnix(skip)]`:
`struct S(#[jnix(skip)] i32, i32)`. -/
def skipTupleFields : List Field :=
  [{ ident := none, ty := RustType.i32, attrs := [JnixAttr.flag "skip"] },
   { ident := none, ty := RustType.i32, attrs := [] }]

/-- `enum Color { Red, Green, Blue }` — all variants field-less. -/
def colorVariants : List Variant :=
  [{ ident := "Red", fields := Fields.unit },
   { ident := "Green", fields := Fields.unit },
   { ident := "Blue", fields := Fields.unit }]

/-- `enum Mixed { A, B(i32), C }` — one middle variant carrying a field. -/
def mixedVariants : List Variant :=
  [{ ident := "A", fields := Fields.unit },
   { ident := "B", fields := Fields.unnamed [{ ident := none, ty := RustType.i32, attrs := [] }] },
   { ident := "C", fields := Fields.unit }]

/-- `struct Point { x: i32, y: i32 }`. -/
def pointFields : Fields :=
  Fields.named
    [{ ident := some "x", ty := RustType.i32, attrs := [] },
     { ident := some "y", ty := RustType.i32, attrs := [] }]

/-- The classified fields of `Point` (no container attributes). -/
def pointParsed : List ParsedField :=
  collect_parsed_fields pointFields []

/-- A `map` closure declaring two parameters: `|a, b| a + b`. -/
def twoParamClosure : ExprClosure :=
  { inputs := [{ pat := "a", ty := none }, { pat := "b", ty := none }], body := "a + b" }

/-! ### Helper lemmas -/

theorem string_foldl_append_shift (l : List String) (a b : String) :
    l.foldl (fun x y => x ++ y) (a ++ b) = a ++ l.foldl (fun x y => x ++ y) b := by
  induction l generalizing b with
  | nil => rfl
  | cons h t ih => simp only [List.foldl_cons, String.append_assoc, ih]

theorem string_foldl_join (l : List String) (i : String) :
    l.foldl (fun x y => x ++ y) i = i ++ String.join l := by
  have h := string_foldl_append_shift l i ""
  rw [String.append_empty] at h
  exact h

theorem assemble_eq_join (sigs : List String) :
    assemble_constructor_signature sigs = "(" ++ String.join sigs ++ ")V" := by
  unfold assemble_constructor_signature
  rw [string_foldl_join]

theorem enum_fold_sealed (vs : List Variant) (names : List String) (fss : List Fields) :
    vs.foldl parse_enum_variants_step (TargetJavaEnumType.SealedClass names fss)
      = TargetJavaEnumType.SealedClass (names ++ vs.map Variant.ident)
          (fss ++ vs.map Variant.fields) := by
  induction vs generalizing names fss with
  | nil => simp
  | cons v vs ih =>
      simp only [List.foldl_cons, parse_enum_variants_step, ih, List.map_cons]
      simp [List.append_assoc]

theorem enum_fold_all_unit (vs : List Variant) : ∀ (names : List String),
    (∀ v ∈ vs, v.fields = Fields.unit) →
    vs.foldl parse_enum_variants_step (TargetJavaEnumType.EnumClass names)
      = TargetJavaEnumType.EnumClass (names ++ vs.map Variant.ident) := by
  induction vs with
  | nil => intro names _; simp
  | cons v vs ih =>
      intro names h
      have hv : v.fields = Fields.unit := h v (List.mem_cons_self v vs)
      simp only [List.foldl_cons, parse_enum_variants_step, hv]
      rw [ih (names ++ [v.ident]) (fun w hw => h w (List.mem_cons_of_mem v hw))]
      simp [List.append_assoc]

theorem enum_fold_mixed (vs : List Variant) : ∀ (names : List String) (prev : List Fields),
    prev.length = names.length →
    (∀ f ∈ prev, f = Fields.unit) →
    (∃ v ∈ vs, v.fields ≠ Fields.unit) →
    vs.foldl parse_enum_variants_step (TargetJavaEnumType.EnumClass names)
      = TargetJavaEnumType.SealedClass (names ++ vs.map Variant.ident)
          (prev ++ vs.map Variant.fields) := by
  induction vs with
  | nil => intro names prev _ _ hx; simp at hx
  | cons v vs ih =>
      intro names prev hlen hprev hx
      cases hfv : v.fields with
      | unit =>
          have hx2 : ∃ w ∈ vs, w.fields ≠ Fields.unit := by
            rcases hx with ⟨w, hw, hne⟩
            rcases List.mem_cons.mp hw with h1 | h2
            · exact absurd (h1 ▸ hfv) hne
            · exact ⟨w, h2, hne⟩
          have hprev2 : ∀ f ∈ prev ++ [Fields.unit], f = Fields.unit := by
            intro f hf
            rcases List.mem_append.mp hf with h1 | h2
            · exact hprev f h1
            · simpa using h2
          simp only [List.foldl_cons, parse_enum_variants_step, hfv]
          rw [ih (names ++ [v.ident]) (prev ++ [Fields.unit]) (by simp [hlen]) hprev2 hx2]
          simp [List.append_assoc, hfv]
      | named nf =>
          have hprev_eq : prev = List.replicate names.length Fields.unit := by
            rw [List.eq_replicate_iff]
            exact ⟨hlen, hprev⟩
          simp only [List.foldl_cons, parse_enum_variants_step, hfv]
          rw [enum_fold_sealed]
          simp [hprev_eq, hfv, List.append_assoc]
      | unnamed nf =>
          have hprev_eq : prev = List.replicate names.length Fields.unit := by
            rw [List.eq_replicate_iff]
            exact ⟨hlen, hprev⟩
          simp only [List.foldl_cons, parse_enum_variants_step, hfv]
          rw [enum_fold_sealed]
          simp [hprev_eq, hfv, List.append_assoc]

/-! ### Claim theorems -/

/-- **C1** (code bug evidence).  The claim states that for a tuple struct
with a skipped field, each retained positional field's synthesized name
`_<index>` counts all declared fields including skipped ones.  The newer
revision (`ParsedFields::collect_parsed_fields`, `fields.rs` lines 143-148,
zip before filter) does exactly that: for `struct S(#[jnix(skip)] i32, i32)`
the retained field is `_1` at member index 1.  The older revision
(`parse_fields`, `lib.rs` lines 506-521, filter before zip) contradicts it:
the same retained field is synthesized as `_0` at member index 0. -/
theorem claim_C1_skip_index_divergence :
    (collect_parsed_fields (Fields.unnamed skipTupleFields) []).map ParsedField.name = ["_1"]
    ∧ (collect_parsed_fields (Fields.unnamed skipTupleFields) []).map ParsedField.member
        = [Member.unnamed 1]
    ∧ (libRs_parse_fields [] (Fields.unnamed skipTupleFields)).map (fun p => p.2.1) = ["_0"]
    ∧ (libRs_parse_fields [] (Fields.unnamed skipTupleFields)).map (fun p => p.1)
        = [Member.unnamed 0] := by
  refine ⟨?_, ?_, ?_, ?_⟩ <;> rfl

/-- **C2**.  For a non-empty enumeration, the strict left fold
`parse_enum_variants` classifies: all field-less variants give
simple-enumeration (`EnumClass`) with the names in declaration order; any
single variant carrying fields forces `SealedClass` for the whole
enumeration, the field lists aligned with the names (earlier field-less
variants back-filled with `Fields.unit`). -/
theorem claim_C2_enum_classification (variants : List Variant) (hne : variants ≠ []) :
    ((∀ v ∈ variants, v.fields = Fields.unit) →
        parse_enum_variants variants
          = TargetJavaEnumType.EnumClass (variants.map Variant.ident))
    ∧ ((∃ v ∈ variants, v.fields ≠ Fields.unit) →
        parse_enum_variants variants
          = TargetJavaEnumType.SealedClass (variants.map Variant.ident)
              (variants.map Variant.fields)) := by
  obtain ⟨v, vs, rfl⟩ := List.exists_cons_of_ne_nil hne
  constructor
  · intro hall
    have hv : v.fields = Fields.unit := hall v (List.mem_cons_self v vs)
    simp only [parse_enum_variants, List.foldl_cons, parse_enum_variants_step, hv]
    rw [enum_fold_all_unit vs [v.ident] (fun w hw => hall w (List.mem_cons_of_mem v hw))]
    simp
  · intro hx
    cases hfv : v.fields with
    | unit =>
        have hx2 : ∃ w ∈ vs, w.fields ≠ Fields.unit := by
          rcases hx with ⟨w, hw, hne2⟩
          rcases List.mem_cons.mp hw with h1 | h2
          · exact absurd (h1 ▸ hfv) hne2
          · exact ⟨w, h2, hne2⟩
        simp only [parse_enum_variants, List.foldl_cons, parse_enum_variants_step, hfv]
        rw [enum_fold_mixed vs [v.ident] [Fields.unit] rfl (by simp) hx2]
        simp [hfv]
    | named nf =>
        simp only [parse_enum_variants, List.foldl_cons, parse_enum_variants_step, hfv]
        rw [enum_fold_sealed]
        simp [hfv]
    | unnamed nf =>
        simp only [parse_enum_variants, List.foldl_cons, parse_enum_variants_step, hfv]
        rw [enum_fold_sealed]
        simp [hfv]

/-- Witness for C2: `Color { Red, Green, Blue }` classifies as `EnumClass`
and `Mixed { A, B(i32), C }` (middle variant fielded) as `SealedClass` with
aligned lists. -/
theorem claim_C2_enum_classification_witness :
    (colorVariants ≠ [] ∧
      parse_enum_variants colorVariants
        = TargetJavaEnumType.EnumClass (colorVariants.map Variant.ident))
    ∧ (mixedVariants ≠ [] ∧
      parse_enum_variants mixedVariants
        = TargetJavaEnumType.SealedClass (mixedVariants.map Variant.ident)
            (mixedVariants.map Variant.fields)) :=
  ⟨⟨by decide, (claim_C2_enum_classification colorVariants (by decide)).1 (by decide)⟩,
   ⟨by decide, (claim_C2_enum_classification mixedVariants (by decide)).2 (by decide)⟩⟩

/-- **C3**.  The emitted constructor descriptor is `(` + the concatenation of
the retained fields' signature strings in declaration order + `)V`, and a
derived type's own descriptor is `L` + the dot-to-slash class name + `;`. -/
theorem claim_C3_constructor_descriptor (class_name : String) (fields : Fields)
    (attrs : List JnixAttr) (sigs : List String)
    (h : (collect_parsed_fields fields attrs).mapM (field_signature []) = some sigs) :
    struct_constructor_signature [] (collect_parsed_fields fields attrs)
      = some ("(" ++ String.join sigs ++ ")V")
    ∧ derived_jni_signature class_name
      = "L" ++ jni_class_name_of class_name ++ ";" := by
  constructor
  · simp only [struct_constructor_signature, h, Option.map_some']
    rw [assemble_eq_join]
  · rfl

/-- Witness for C3: `Point { x: i32, y: i32 }` with
`class_name = "com.example.Point"` yields constructor signature `(II)V` and
type descriptor `Lcom/example/Point;`. -/
theorem claim_C3_constructor_descriptor_witness :
    (collect_parsed_fields pointFields []).mapM (field_signature []) = some ["I", "I"]
    ∧ struct_constructor_signature [] (collect_parsed_fields pointFields [])
        = some ("(" ++ String.join ["I", "I"] ++ ")V")
    ∧ derived_jni_signature "com.example.Point"
        = "L" ++ jni_class_name_of "com.example.Point" ++ ";"
    ∧ struct_constructor_signature [] (collect_parsed_fields pointFields []) = some "(II)V"
    ∧ derived_jni_signature "com.example.Point" = "Lcom/example/Point;" := by
  have h : (collect_parsed_fields pointFields []).mapM (field_signature []) = some ["I", "I"] := by
    rfl
  exact ⟨h, (claim_C3_constructor_descriptor "com.example.Point" pointFields [] ["I", "I"] h).1,
    (claim_C3_constructor_descriptor "com.example.Point" pointFields [] ["I", "I"] h).2,
    by rfl, by rfl⟩

/-- **C4** (code bug evidence).  `JnixEnv::get_class` is the single cache
accessor: a hit returns the cached reference without loading, a miss loads
once and inserts.  The newer emission (`fields.rs` lines 221-222) never
bypasses it — every bridge call either is the `get_class` call itself or
receives the cached class reference.  The older emission hands the raw
class-name string straight to `env.new_object` (`lib.rs` line 436) and to
both static-field calls (`lib.rs` lines 311-325), bypassing the cache. -/
theorem claim_C4_class_cache_bypass (jni sig vn : String) :
    ((fieldsRs_conversion_calls jni sig).all
        (fun c => !(BridgeCall.bypasses_cache c)) = true)
    ∧ get_class { entries := [("com/example/Point", 7)], next_ref := 8, load_log := [] }
          "com/example/Point"
        = (7, { entries := [("com/example/Point", 7)], next_ref := 8, load_log := [] })
    ∧ get_class { entries := [], next_ref := 0, load_log := [] } "com/example/Point"
        = (0, { entries := [("com/example/Point", 0)], next_ref := 1,
                load_log := ["com/example/Point"] })
    ∧ ((libRs_struct_body_calls jni sig).any BridgeCall.bypasses_cache = true)
    ∧ ((libRs_enum_body_calls jni vn).any BridgeCall.bypasses_cache = true) := by
  refine ⟨?_, by decide, by decide, ?_, ?_⟩ <;> rfl

/-- **C5**.  Every run-time failure the bridge reports inside an emitted
conversion — object construction failing, static-field id or value lookup
failing, a static-field value that is not an object reference — aborts the
process with a message naming both the Rust source type and the target Java
class; success is the only case producing a handle, and no fallback value
exists. -/
theorem claim_C5_failure_aborts (tn cn vn : String) :
    struct_conversion_run tn cn none
        = RunResult.abort (struct_failure_message tn cn)
    ∧ (∃ a b c, struct_failure_message tn cn = a ++ tn ++ b ++ cn ++ c)
    ∧ (∀ o, struct_conversion_run tn cn (some o) = RunResult.ok (auto_local o))
    ∧ (∀ value, enum_variant_run tn vn cn none value
        = RunResult.abort (enum_variant_failure_message tn vn cn))
    ∧ (∀ id, enum_variant_run tn vn cn (some id) none
        = RunResult.abort (enum_variant_failure_message tn vn cn))
    ∧ (∀ id n, enum_variant_run tn vn cn (some id) (some (JValue.IntValue n))
        = RunResult.abort (enum_variant_invalid_message tn vn cn))
    ∧ (∀ id b, enum_variant_run tn vn cn (some id) (some (JValue.BoolValue b))
        = RunResult.abort (enum_variant_invalid_message tn vn cn))
    ∧ (∃ a b c, enum_variant_failure_message tn vn cn = a ++ tn ++ b ++ cn ++ c)
    ∧ (∃ a b c, enum_variant_invalid_message tn vn cn = a ++ tn ++ b ++ cn ++ c) := by
  refine ⟨rfl, ⟨"Failed to convert ", " Rust type into ", " Java object", rfl⟩,
    fun o => rfl, fun value => rfl, fun id => rfl, fun id n => rfl, fun id b => rfl,
    ⟨"Failed to convert ", "::" ++ vn ++ " Rust enum variant into ", " Java object", ?_⟩,
    ⟨"Conversion from ", "::" ++ vn ++ " Rust enum variant into ",
      " Java object returned an invalid result.", ?_⟩⟩
  · simp [enum_variant_failure_message, String.append_assoc]
  · simp [enum_variant_invalid_message, String.append_assoc]

/-- **C6**.  Each simple-enumeration variant body looks up a static field
named after the variant with expected field type `L<class>;` (the declaring
class's own descriptor), wraps the value in a scoped handle only when it is
an object reference, and aborts with the reported contract violation for any
other run-time value shape. -/
theorem claim_C6_enum_variant_lookup (jni tn cn vn : String) :
    (generate_enum_class_lookup jni vn).field_name = vn
    ∧ (generate_enum_class_lookup jni vn).field_sig = "L" ++ jni ++ ";"
    ∧ (∀ id o, enum_variant_run tn vn cn (some id) (some (JValue.Object o))
        = RunResult.ok (auto_local o))
    ∧ (∀ id value, value.isObject = false →
        enum_variant_run tn vn cn (some id) (some value)
          = RunResult.abort (enum_variant_invalid_message tn vn cn)) := by
  refine ⟨rfl, rfl, fun id o => rfl, fun id value h => ?_⟩
  cases value with
  | Object o => simp [JValue.isObject] at h
  | IntValue n => rfl
  | BoolValue b => rfl

/-- Witness for C6: the `Color::Red` lookup uses field name `Red` with
descriptor `Lcom/example/Color;`, and a non-object value aborts. -/
theorem claim_C6_enum_variant_lookup_witness :
    (JValue.IntValue 3).isObject = false
    ∧ (generate_enum_class_lookup "com/example/Color" "Red").field_name = "Red"
    ∧ (generate_enum_class_lookup "com/example/Color" "Red").field_sig
        = "L" ++ "com/example/Color" ++ ";"
    ∧ enum_variant_run "Color" "Red" "com.example.Color" (some 0)
          (some (JValue.IntValue 3))
        = RunResult.abort (enum_variant_invalid_message "Color" "Red" "com.example.Color") :=
  ⟨by decide,
   (claim_C6_enum_variant_lookup "com/example/Color" "Color" "com.example.Color" "Red").1,
   (claim_C6_enum_variant_lookup "com/example/Color" "Color" "com.example.Color" "Red").2.1,
   (claim_C6_enum_variant_lookup "com/example/Color" "Color" "com.example.Color" "Red").2.2.2
     0 (JValue.IntValue 3) (by decide)⟩

/-- **C7**.  The construction target of the i-th sealed-hierarchy variant
body is exactly the declaring class's slash-delimited name, `$`, and the
variant's identifier. -/
theorem claim_C7_sealed_nested_class_name (jni : String) (names : List String)
    (fieldss : List Fields) (i : Nat) (h1 : i < names.length)
    (h3 : i < (generate_sealed_class_bodies jni names fieldss).length) :
    ((generate_sealed_class_bodies jni names fieldss).get ⟨i, h3⟩).target_class_name
      = jni ++ "$" ++ names.get ⟨i, h1⟩ := by
  have h3l : i < (names.zip fieldss).length := by
    simpa [generate_sealed_class_bodies] using h3
  simp [generate_sealed_class_bodies, List.get_eq_getElem, List.getElem_map,
    List.getElem_zip]

/-- Witness for C7: for class `net/example/Shape` with variants
`Circle`, `Square`, the second body targets `net/example/Shape$Square`. -/
theorem claim_C7_sealed_nested_class_name_witness :
    1 < (["Circle", "Square"] : List String).length
    ∧ 1 < (generate_sealed_class_bodies "net/example/Shape" ["Circle", "Square"]
            [Fields.unit, Fields.unnamed []]).length
    ∧ ((generate_sealed_class_bodies "net/example/Shape" ["Circle", "Square"]
          [Fields.unit, Fields.unnamed []]).get ⟨1, by decide⟩).target_class_name
        = "net/example/Shape" ++ "$" ++ (["Circle", "Square"] : List String).get ⟨1, by decide⟩ :=
  ⟨by decide, by decide,
   claim_C7_sealed_nested_class_name "net/example/Shape" ["Circle", "Square"]
     [Fields.unit, Fields.unnamed []] 1 (by decide) (by decide)⟩

/-- **C8**.  A container carrying the `skip_all` flag classifies to the
empty field collection in both revisions, so the emitted constructor
descriptor is `()V` and the constructor argument list is empty, regardless
of the declared fields. -/
theorem claim_C8_skip_all (attrs : List JnixAttr) (fields : Fields)
    (tps : List String) (h : contains_jnix_flag attrs "skip_all" = true) :
    collect_parsed_fields fields attrs = []
    ∧ libRs_parse_fields attrs fields = []
    ∧ struct_constructor_signature tps (collect_parsed_fields fields attrs) = some "()V"
    ∧ constructor_parameters (collect_parsed_fields fields attrs) = [] := by
  have h1 : collect_parsed_fields fields attrs = [] := by
    simp [collect_parsed_fields, h]
  have h2 : libRs_parse_fields attrs fields = [] := by
    simp [libRs_parse_fields, h]
  rw [h1]
  exact ⟨rfl, h2, rfl, rfl⟩

/-- Witness for C8: `skip_all` on the two-field `Point` struct yields no
classified fields, descriptor `()V` and no constructor arguments. -/
theorem claim_C8_skip_all_witness :
    contains_jnix_flag [JnixAttr.flag "skip_all"] "skip_all" = true
    ∧ collect_parsed_fields pointFields [JnixAttr.flag "skip_all"] = []
    ∧ libRs_parse_fields [JnixAttr.flag "skip_all"] pointFields = []
    ∧ struct_constructor_signature []
        (collect_parsed_fields pointFields [JnixAttr.flag "skip_all"]) = some "()V"
    ∧ constructor_parameters
        (collect_parsed_fields pointFields [JnixAttr.flag "skip_all"]) = [] :=
  ⟨by decide,
   (claim_C8_skip_all [JnixAttr.flag "skip_all"] pointFields [] (by decide)).1,
   (claim_C8_skip_all [JnixAttr.flag "skip_all"] pointFields [] (by decide)).2.1,
   (claim_C8_skip_all [JnixAttr.flag "skip_all"] pointFields [] (by decide)).2.2.1,
   (claim_C8_skip_all [JnixAttr.flag "skip_all"] pointFields [] (by decide)).2.2.2⟩

/-- **C9**.  Preparing a `map` closure annotates an unannotated single
parameter with the field's own declared type, keeps an explicit annotation,
and fails macro expansion when more than one parameter is declared — in both
revisions. -/
theorem claim_C9_map_closure (fty t : RustType) (pat body : String)
    (c : ExprClosure) (h : 1 < c.inputs.length) :
    fieldsRs_prepare_map_closure fty { inputs := [{ pat := pat, ty := none }], body := body }
        = Except.ok { inputs := [{ pat := pat, ty := some fty }], body := body }
    ∧ fieldsRs_prepare_map_closure fty { inputs := [{ pat := pat, ty := some t }], body := body }
        = Except.ok { inputs := [{ pat := pat, ty := some t }], body := body }
    ∧ fieldsRs_prepare_map_closure fty c
        = Except.error "Too many parameters in jnix(map = ...) closure"
    ∧ libRs_prepare_map_closure fty { inputs := [{ pat := pat, ty := none }], body := body }
        = Except.ok { inputs := [{ pat := pat, ty := some fty }], body := body }
    ∧ libRs_prepare_map_closure fty c
        = Except.error "Too many parameters in jnix(map = ...) closure" := by
  refine ⟨rfl, rfl, ?_, rfl, ?_⟩
  · rw [fieldsRs_prepare_map_closure, if_neg (by omega)]
  · rw [libRs_prepare_map_closure, if_neg (by omega)]

/-- Witness for C9: the two-parameter closure `|a, b| a + b` is rejected by
both revisions, and a bare `|x| ...` parameter receives the field type. -/
theorem claim_C9_map_closure_witness :
    1 < twoParamClosure.inputs.length
    ∧ fieldsRs_prepare_map_closure RustType.i32
        { inputs := [{ pat := "x", ty := none }], body := "x + 1" }
        = Except.ok { inputs := [{ pat := "x", ty := some RustType.i32 }], body := "x + 1" }
    ∧ fieldsRs_prepare_map_closure RustType.i32 twoParamClosure
        = Except.error "Too many parameters in jnix(map = ...) closure"
    ∧ libRs_prepare_map_closure RustType.i32 twoParamClosure
        = Except.error "Too many parameters in jnix(map = ...) closure" :=
  ⟨by decide,
   (claim_C9_map_closure RustType.i32 RustType.i32 "x" "x + 1" twoParamClosure (by decide)).1,
   (claim_C9_map_closure RustType.i32 RustType.i32 "x" "x + 1" twoParamClosure (by decide)).2.2.1,
   (claim_C9_map_closure RustType.i32 RustType.i32 "x" "x + 1" twoParamClosure
     (by decide)).2.2.2.2⟩

/-- **C10**.  `Option<T>` converts `Some(t)` to `t`'s own conversion result,
converts `None` to a scoped handle wrapping the null object reference, and
its compile-time descriptor equals `T`'s descriptor. -/
theorem claim_C10_option_conversion {T : Type} (into_java_t : T → AutoLocal)
    (t : T) (ty : RustType) :
    option_into_java into_java_t (some t) = into_java_t t
    ∧ option_into_java into_java_t none = auto_local JObject.null
    ∧ (option_into_java into_java_t none).obj = JObject.null
    ∧ type_jni_signature (RustType.option ty) = type_jni_signature ty := by
  refine ⟨rfl, rfl, rfl, ?_⟩
  simp [type_jni_signature]

end Jnix
